import Mathlib

/-!
Shallow embedding of `src/resolver.go` (package `resolver` of tdx/resolver):
a background hostname-resolver cache with round-robin address selection.

The registry `map[string]*ips` is embedded as an association list with
unique keys (the `AddHost` guard keeps keys unique); Go `nil` slices are
embedded as `[]`; the Go `int` cursor is embedded as `Int` with Go's
truncated remainder `Int.tmod` (reachable cursors stay far from the 64-bit
overflow boundary, since every write clamps the cursor below the list
length). Operations are written in state-passing style: each returns the
registry it leaves behind together with its result, so that frame
properties are statable. The external collaborators (`net.LookupHost`,
`net.ParseIP`, the logger) are not repository code: lookup results enter
as explicit inputs, the parser is a parameter (with a concrete model
below for concrete runs), and logging is ignored.
-/

namespace Resolver

/-- Binary form of an address (`net.IP`): a byte sequence. -/
abbrev IP := List Nat

/-- The per-host record, from `type ips struct` (src/resolver.go:16-22):
rotation cursor `idx`, string lists `ip4`/`ip6`, parsed lists `ipv4`/`ipv6`. -/
structure Ips where
  idx : Int
  ip4 : List String
  ip6 : List String
  ipv4 : List IP
  ipv6 : List IP
deriving Repr, DecidableEq

/-- The zero value `&ips{}` inserted by `AddHost` (src/resolver.go:52). -/
def emptyIps : Ips := ⟨0, [], [], [], []⟩

/-- The registry `hosts map[string]*ips` as an association list. -/
abbrev Registry := List (String × Ips)

/-- Overwrite the record stored under a key (pointer write through the
entry found in the map); keys not equal to `h` are untouched. -/
def setHost : Registry → String → Ips → Registry
  | [], _, _ => []
  | p :: ps, h, r => (if p.1 = h then (h, r) else p) :: setHost ps h r

/-- Lexicographic comparison of two character lists, as a boolean; this
is the order `sort.Strings` sorts by (byte order and code-point order
agree on the addresses at hand). Structural, so the kernel can run it. -/
def charListLeB : List Char → List Char → Bool
  | [], _ => true
  | _ :: _, [] => false
  | a :: as, b :: bs =>
    if a < b then true
    else if b < a then false
    else charListLeB as bs

/-- Lexicographic order on strings, via `charListLeB`. -/
def strLe (a b : String) : Prop := charListLeB a.toList b.toList = true

instance strLeDec : DecidableRel strLe := fun a b =>
  Bool.decEq (charListLeB a.toList b.toList) true

/-- Embedding of `sort.Strings`: lexicographic sort of a string list. Lexicographic
order on strings is total and antisymmetric, so the sorted permutation is
unique and any correct sorting algorithm computes the same list; we use
insertion sort, whose structural recursion the kernel can evaluate. -/
def sortStrings (l : List String) : List String := l.insertionSort strLe

/-- Embedding of `strings.Contains(ip, ":")` (src/resolver.go:204). -/
def hasColon (s : String) : Bool := s.toList.contains ':'

/-- Embedding of `AddHost` (src/resolver.go:43-70). Returns the new registry and
whether a refresh goroutine was launched: if the host is already present
it returns immediately (no insert, no new loop); otherwise it inserts the
zero record and starts one loop. -/
def AddHost (st : Registry) (host : String) : Registry × Bool :=
  match st.lookup host with
  | some _ => (st, false)
  | none => (st ++ [(host, emptyIps)], true)

/-- Embedding of `DelHost` (src/resolver.go:72-76): `delete(s.hosts, host)`. -/
def DelHost (st : Registry) (host : String) : Registry :=
  st.filter (fun p => !(p.1 == host))

/-- Embedding of `GetNextIPWithIdx` (src/resolver.go:93-111). Unknown host or empty
IPv4 list: `("", -1)`, state untouched. Otherwise the cursor is advanced
by one modulo the IPv4 count (Go `%` is truncated remainder, `Int.tmod`)
and the address at the new cursor is returned with the cursor value. -/
def GetNextIPWithIdx (st : Registry) (host : String) : Registry × String × Int :=
  match st.lookup host with
  | none => (st, "", -1)
  | some r =>
    let itemsCount := r.ip4.length
    if itemsCount = 0 then (st, "", -1)
    else
      let j := (r.idx + 1).tmod (itemsCount : Int)
      (setHost st host { r with idx := j }, r.ip4.getD j.toNat "", j)

/-- Embedding of `GetNextIP` (src/resolver.go:86-91): discards the index. -/
def GetNextIP (st : Registry) (host : String) : Registry × String :=
  let r := GetNextIPWithIdx st host
  (r.1, r.2.1)

/-- Embedding of `GetIPs` (src/resolver.go:113-124): read-only; `nil` results are `[]`. -/
def GetIPs (st : Registry) (host : String) : Registry × List IP × List IP :=
  match st.lookup host with
  | none => (st, [], [])
  | some r => (st, r.ipv4, r.ipv6)

/-- Embedding of `GetIPsStr` (src/resolver.go:126-137): read-only; `nil` results are `[]`. -/
def GetIPsStr (st : Registry) (host : String) : Registry × List String × List String :=
  match st.lookup host with
  | none => (st, [], [])
  | some r => (st, r.ip4, r.ip6)

/-- One line `fmt.Fprintf(w, "%sresolver.v4.%s.%d: %s\n", ...)` without
the trailing newline. -/
def dumpLine (pfx fam hostName : String) (i : Nat) (ip : String) : String :=
  s!"{pfx}resolver.v{fam}.{hostName}.{i}: {ip}"

/-- Embedding of `DumpPrefix` (src/resolver.go:143-177), named `DumpPfx` here: hosts
sorted, per host the IPv4 then IPv6 string lists each copied and sorted,
one output line per address. Returns the untouched registry and the lines. -/
def DumpPfx (st : Registry) (pfx : String) : Registry × List String :=
  let hs := sortStrings (st.map (fun p => p.1))
  (st, hs.flatMap (fun hostName =>
    match st.lookup hostName with
    | none => []
    | some host =>
      let ip4 := sortStrings host.ip4
      let ip6 := sortStrings host.ip6
      (ip4.enum.map (fun q => dumpLine pfx "4" hostName q.1 q.2)) ++
      (ip6.enum.map (fun q => dumpLine pfx "6" hostName q.1 q.2))))

/-- Embedding of `Dump` (src/resolver.go:139-141): `DumpPrefix` with an empty prefix. -/
def Dump (st : Registry) : Registry × List String := DumpPfx st ""

/-- The partition pass of `updateHostIPs` (src/resolver.go:197-211): walk
the lookup result in order, drop strings the parser rejects, route a kept
string (and its parse) to the v6 pair when it contains a colon, else to
the v4 pair. Result: (v4 strings, v6 strings, v4 parses, v6 parses), all
in input order. -/
def partIPs (parseIP : String → Option IP) (sip : List String) :
    List String × List String × List IP × List IP :=
  let keep := sip.filter (fun ip => (parseIP ip).isSome)
  let s4 := keep.filter (fun ip => !(hasColon ip))
  let s6 := keep.filter (fun ip => hasColon ip)
  (s4, s6, s4.filterMap parseIP, s6.filterMap parseIP)

/-- The record a successful `updateHostIPs` writes over the old record
`r` (src/resolver.go:212-222): the two string lists sorted, the two
parsed lists in input order, and the cursor reset to 0 when it exceeds
`len(ipsv4)-1`, kept otherwise. -/
def updatedRec (parseIP : String → Option IP) (r : Ips) (sip : List String) : Ips :=
  ⟨if r.idx > ((sortStrings (partIPs parseIP sip).1).length : Int) - 1 then 0 else r.idx,
   sortStrings (partIPs parseIP sip).1,
   sortStrings (partIPs parseIP sip).2.1,
   (partIPs parseIP sip).2.2.1,
   (partIPs parseIP sip).2.2.2⟩

/-- Embedding of `updateHostIPs` (src/resolver.go:180-228), parameterised by the
external parser `net.ParseIP`. Absent host: `false`, nothing written.
Present host: the four lists and the clamped cursor (`updatedRec`)
replace the old record, and the call reports `true`. -/
def updateHostIPs (parseIP : String → Option IP) (st : Registry)
    (host : String) (sip : List String) : Registry × Bool :=
  match st.lookup host with
  | none => (st, false)
  | some r => (setHost st host (updatedRec parseIP r sip), true)

/-- Split a character list at every occurrence of the separator
character (the one-character case of Go `strings.Split`). -/
def splitOnChar (c : Char) : List Char → List (List Char)
  | [] => [[]]
  | x :: xs =>
    if x = c then [] :: splitOnChar c xs
    else
      match splitOnChar c xs with
      | [] => [[x]]
      | y :: ys => (x :: y) :: ys

/-- Split a character list at every non-overlapping occurrence of `::`. -/
def splitOnDoubleColon : List Char → List (List Char)
  | [] => [[]]
  | ':' :: ':' :: xs => [] :: splitOnDoubleColon xs
  | x :: xs =>
    match splitOnDoubleColon xs with
    | [] => [[x]]
    | y :: ys => (x :: y) :: ys

/-- Modelled from the spec: a decimal octet of a dotted-quad address as
the external `net.ParseIP` collaborator validates it — 1 to 3 digits,
value at most 255, no leading zero. -/
def parseOctet (cs : List Char) : Option Nat :=
  if cs.isEmpty then none
  else if cs.length > 3 then none
  else if !(cs.all (fun c => c.isDigit)) then none
  else if (cs.head? == some '0') && (cs.length != 1) then none
  else
    let v := cs.foldl (fun acc c => acc * 10 + (c.toNat - 48)) 0
    if v ≤ 255 then some v else none

/-- Modelled from the spec: dotted-decimal IPv4 syntax validation by the
external `net.ParseIP` collaborator. A valid address yields the 16-byte
IPv4-in-IPv6 form `net.ParseIP` returns. -/
def parseIPv4Model (s : String) : Option IP :=
  match (splitOnChar '.' s.toList).map parseOctet with
  | [some a, some b, some c, some d] =>
    some ([0, 0, 0, 0, 0, 0, 0, 0, 0, 0, 255, 255] ++ [a, b, c, d])
  | _ => none

/-- A hexadecimal digit value, for IPv6 groups. -/
def hexDigit (c : Char) : Option Nat :=
  if c.isDigit then some (c.toNat - 48)
  else if ('a' ≤ c) && (c ≤ 'f') then some (c.toNat - 87)
  else if ('A' ≤ c) && (c ≤ 'F') then some (c.toNat - 55)
  else none

/-- A 16-bit IPv6 group: 1 to 4 hexadecimal digits. -/
def parseHexGroup (cs : List Char) : Option Nat :=
  if cs.isEmpty || (cs.length > 4) then none
  else cs.foldl (fun acc c =>
    match acc, hexDigit c with
    | some a, some d => some (a * 16 + d)
    | _, _ => none) (some 0)

/-- The two bytes of a 16-bit group value. -/
def groupBytes (v : Nat) : List Nat := [v / 256, v % 256]

/-- Modelled from the spec: colon-hexadecimal IPv6 syntax validation by
the external `net.ParseIP` collaborator — eight 16-bit groups, or fewer
with one `::` gap filled with zero groups (the embedded-IPv4 tail form is
out of scope of the spec's examples and rejected here). -/
def parseIPv6Model (s : String) : Option IP :=
  match splitOnDoubleColon s.toList with
  | [whole] =>
    let groups := (splitOnChar ':' whole).map parseHexGroup
    if (groups.length == 8) && groups.all Option.isSome then
      some ((groups.map (fun g => groupBytes (g.getD 0))).flatten)
    else none
  | [l, r] =>
    let lg := if l.isEmpty then [] else (splitOnChar ':' l).map parseHexGroup
    let rg := if r.isEmpty then [] else (splitOnChar ':' r).map parseHexGroup
    if lg.all Option.isSome && rg.all Option.isSome &&
        (lg.length + rg.length < 8) then
      let vals := (lg.map (fun g => g.getD 0)) ++
        List.replicate (8 - lg.length - rg.length) 0 ++
        (rg.map (fun g => g.getD 0))
      some ((vals.map groupBytes).flatten)
    else none
  | _ => none

/-- Modelled from the spec: the external `net.ParseIP` collaborator (the
repository calls it at src/resolver.go:199 but does not define it). The
first `.` or `:` in the string selects the dotted-decimal or the
colon-hexadecimal grammar; a string with neither is invalid (for example
"not-an-ip" is rejected). -/
def parseIPModel (s : String) : Option IP :=
  match s.toList.find? (fun c => (c == '.') || (c == ':')) with
  | some '.' => parseIPv4Model s
  | some ':' => parseIPv6Model s
  | _ => none

/-- Outcome of one `net.LookupHost` call: a list of address strings, or
an error. -/
inductive LookupResult where
  | ok (addrs : List String)
  | err
deriving Repr, DecidableEq

/-- One iteration of the refresh goroutine body (src/resolver.go:56-68):
on a successful lookup the result is written via `updateHostIPs` and the
loop continues iff that write found the host; on a failed lookup nothing
is written and the loop continues. Returns (registry, keep-running). -/
def refreshCycle (parseIP : String → Option IP) (host : String)
    (res : LookupResult) (st : Registry) : Registry × Bool :=
  match res with
  | .ok addrs => updateHostIPs parseIP st host addrs
  | .err => (st, true)

/-- The refresh goroutine (src/resolver.go:54-69) run over a finite trace
of lookup outcomes: it stops — consuming no further outcomes — as soon as
a cycle reports the host gone, and otherwise runs every cycle. -/
def refreshLoop (parseIP : String → Option IP) (host : String) :
    List LookupResult → Registry → Registry
  | [], st => st
  | res :: rest, st =>
    let c := refreshCycle parseIP host res st
    if c.2 then refreshLoop parseIP host rest c.1 else c.1

/-- One atomic action of `updateHostIPs` on shared state, for auditing
the locking discipline: acquiring/releasing the shared (read) or the
exclusive (write) lock, or writing one field of a host record. -/
inductive Event where
  | rlock
  | runlock
  | lock
  | unlock
  | writeField (field : String)
deriving Repr, DecidableEq

/-- The sequence of lock and shared-record actions `updateHostIPs`
performs (src/resolver.go:180-228): it takes and releases the read lock
around the map lookup (lines 182-184); when the host is present it then
assigns the four list fields (lines 215-218) and, when the clamp fires,
the cursor (lines 220-222) — with no lock acquisition in between. -/
def updateHostIPsEvents (parseIP : String → Option IP) (st : Registry)
    (host : String) (sip : List String) : List Event :=
  match st.lookup host with
  | none => [.rlock, .runlock]
  | some r =>
    let p := partIPs parseIP sip
    let ipsv4 := sortStrings p.1
    [.rlock, .runlock,
     .writeField "ip4", .writeField "ip6",
     .writeField "ipv4", .writeField "ipv6"] ++
    (if r.idx > (ipsv4.length : Int) - 1 then [.writeField "idx"] else [])

/-- Fold over an event trace: result is `(allWritesExclusive, exclusiveHeldNow)`;
a `writeField` keeps the first flag only if the exclusive lock is held
when it happens. -/
def writesStep (acc : Bool × Bool) (e : Event) : Bool × Bool :=
  match e with
  | .lock => (acc.1, true)
  | .unlock => (acc.1, false)
  | .writeField _ => (acc.1 && acc.2, acc.2)
  | _ => acc

/-- Whether every record write in the trace happens while the exclusive
lock is held. -/
def allWritesExclusive (evs : List Event) : Bool :=
  (evs.foldl writesStep (true, false)).1

/-! ### Helper lemmas about the registry -/

theorem mem_setHost {st : Registry} {h : String} {r : Ips} {p : String × Ips}
    (hp : p ∈ setHost st h r) : p = (h, r) ∨ p ∈ st := by
  induction st with
  | nil => simp [setHost] at hp
  | cons q qs ih =>
    simp only [setHost, List.mem_cons] at hp
    rcases hp with hp | hp
    · by_cases hq : q.1 = h
      · rw [if_pos hq] at hp
        exact Or.inl hp
      · rw [if_neg hq] at hp
        exact Or.inr (by simp [hp])
    · rcases ih hp with h1 | h1
      · exact Or.inl h1
      · exact Or.inr (List.mem_cons_of_mem _ h1)

theorem lookup_setHost_self {st : Registry} {h : String} {r v : Ips}
    (hl : st.lookup h = some v) : (setHost st h r).lookup h = some r := by
  induction st with
  | nil => simp at hl
  | cons q qs ih =>
    obtain ⟨k, w⟩ := q
    by_cases hk : k = h
    · subst hk
      simp [setHost]
    · have hb : (h == k) = false := by
        simp [beq_iff_eq]
        exact fun e => hk e.symm
      simp only [List.lookup_cons, hb] at hl
      simp only [setHost, if_neg hk, List.lookup_cons, hb]
      exact ih hl

theorem lookup_setHost_ne (st : Registry) (h h2 : String) (r : Ips)
    (hne : h2 ≠ h) : (setHost st h r).lookup h2 = st.lookup h2 := by
  induction st with
  | nil => rfl
  | cons q qs ih =>
    obtain ⟨k, w⟩ := q
    by_cases hk : k = h
    · subst hk
      have hb : (h2 == k) = false := by simp [beq_iff_eq, hne]
      simp only [setHost, if_true]
      simp only [List.lookup_cons, hb]
      exact ih
    · simp only [setHost, if_neg hk, List.lookup_cons]
      cases hkb : (h2 == k) with
      | true => rfl
      | false => exact ih

/-- Lemma: `charListLeB` coincides with the lexicographic (`Lex`) order-or-equal
on character lists. -/
theorem charListLeB_iff : ∀ as bs : List Char,
    charListLeB as bs = true ↔ (List.Lex (· < ·) as bs ∨ as = bs)
  | [], [] => by simp [charListLeB]
  | [], b :: bs => by
    simp [charListLeB]
    exact List.Lex.nil
  | a :: as, [] => by
    simp [charListLeB]
  | a :: as, b :: bs => by
    simp only [charListLeB]
    by_cases hab : a < b
    · simp only [if_pos hab, true_iff]
      exact Or.inl (List.Lex.rel hab)
    · by_cases hba : b < a
      · simp only [if_neg hab, if_pos hba]
        constructor
        · intro h
          cases h
        · rintro (h | h)
          · cases h with
            | rel h2 => exact absurd h2 hab
            | cons h2 => exact absurd rfl (ne_of_gt hba)
          · cases h
            exact absurd rfl (ne_of_gt hba)
      · have hec : a = b := le_antisymm (not_lt.mp hba) (not_lt.mp hab)
        subst hec
        simp only [if_neg hab, if_neg hba]
        rw [charListLeB_iff as bs]
        constructor
        · rintro (h | h)
          · exact Or.inl (List.Lex.cons h)
          · exact Or.inr (by rw [h])
        · rintro (h | h)
          · cases h with
            | rel h2 => exact absurd h2 hab
            | cons h2 => exact Or.inl h2
          · exact Or.inr (by injection h)

/-- Lemma: `strLe` is the standard lexicographic order `≤` on strings. -/
theorem strLe_iff_le (a b : String) : strLe a b ↔ a ≤ b := by
  rw [strLe, charListLeB_iff, String.le_iff_toList_le, le_iff_lt_or_eq]
  exact Iff.rfl

instance : IsTrans String strLe :=
  ⟨fun a b c h1 h2 => (strLe_iff_le a c).mpr
    (le_trans ((strLe_iff_le a b).mp h1) ((strLe_iff_le b c).mp h2))⟩

instance : IsTotal String strLe :=
  ⟨fun a b => by
    rcases le_total a b with h | h
    · exact Or.inl ((strLe_iff_le a b).mpr h)
    · exact Or.inr ((strLe_iff_le b a).mpr h)⟩

/-- The result of `sortStrings` is sorted for the lexicographic order. -/
theorem sortStrings_sorted (l : List String) : (sortStrings l).Sorted (· ≤ ·) :=
  (List.sorted_insertionSort strLe l).imp (fun h => (strLe_iff_le _ _).mp h)

theorem sortStrings_perm (l : List String) : List.Perm (sortStrings l) l :=
  List.perm_insertionSort strLe l

theorem sortStrings_length (l : List String) : (sortStrings l).length = l.length :=
  (sortStrings_perm l).length_eq

theorem mem_sortStrings {x : String} {l : List String} :
    x ∈ sortStrings l ↔ x ∈ l :=
  (sortStrings_perm l).mem_iff

theorem mem_of_lookup {st : Registry} {h : String} {r : Ips}
    (hl : st.lookup h = some r) : (h, r) ∈ st := by
  rcases List.lookup_eq_some_iff.mp hl with ⟨l1, l2, he, _⟩
  subst he
  simp

theorem lookup_delHost_self (st : Registry) (h : String) :
    (DelHost st h).lookup h = none := by
  rw [List.lookup_eq_none_iff]
  intro p hp
  have h2 := (List.mem_filter.mp hp).2
  simp only [Bool.not_eq_true', beq_eq_false_iff_ne, ne_eq] at h2
  simp only [bne_iff_ne, ne_eq]
  exact fun e => h2 e.symm

/-! ### Concrete fixtures -/

/-- The three-address round-robin fixture of the spec: cursor 0, IPv4
list `["10.0.0.1","10.0.0.2","10.0.0.3"]`. -/
def rrRec : Ips := { emptyIps with ip4 := ["10.0.0.1", "10.0.0.2", "10.0.0.3"] }

/-- A registry holding the round-robin fixture under host `"h"`. -/
def rrReg : Registry := [("h", rrRec)]

/-! ### Claims -/

/-- C1: for every registered host with a non-empty IPv4 list,
`GetNextIPWithIdx` first advances the rotation cursor by one modulo the
current IPv4 count (storing it back) and then returns the address at the
new cursor together with the cursor value; in particular on the IPv4 list
`["10.0.0.1","10.0.0.2","10.0.0.3"]` with cursor 0, four consecutive
calls return the addresses at indices 1, 2, 0, 1. -/
theorem getNextIP_advances_then_reads :
    (∀ (st : Registry) (host : String) (r : Ips),
      st.lookup host = some r → r.ip4 ≠ [] →
      GetNextIPWithIdx st host =
        (setHost st host { r with idx := (r.idx + 1).tmod (r.ip4.length : Int) },
         r.ip4.getD ((r.idx + 1).tmod (r.ip4.length : Int)).toNat "",
         (r.idx + 1).tmod (r.ip4.length : Int))) ∧
    ((GetNextIPWithIdx rrReg "h").2 = ("10.0.0.2", 1) ∧
     (GetNextIPWithIdx (GetNextIPWithIdx rrReg "h").1 "h").2 = ("10.0.0.3", 2) ∧
     (GetNextIPWithIdx (GetNextIPWithIdx (GetNextIPWithIdx rrReg "h").1 "h").1 "h").2 =
       ("10.0.0.1", 0) ∧
     (GetNextIPWithIdx (GetNextIPWithIdx (GetNextIPWithIdx
       (GetNextIPWithIdx rrReg "h").1 "h").1 "h").1 "h").2 = ("10.0.0.2", 1)) := by
  constructor
  · intro st host r hl hne
    have hlen : r.ip4.length ≠ 0 := by simpa using hne
    simp [GetNextIPWithIdx, hl, hlen]
  · exact ⟨by decide, by decide, by decide, by decide⟩

/-- Witness for C1 at the fixture registry. -/
theorem getNextIP_advances_then_reads_witness :
    rrReg.lookup "h" = some rrRec ∧ rrRec.ip4 ≠ [] ∧
    GetNextIPWithIdx rrReg "h" =
      (setHost rrReg "h" { rrRec with idx := (rrRec.idx + 1).tmod (rrRec.ip4.length : Int) },
       rrRec.ip4.getD ((rrRec.idx + 1).tmod (rrRec.ip4.length : Int)).toNat "",
       (rrRec.idx + 1).tmod (rrRec.ip4.length : Int)) :=
  ⟨by decide, by decide,
   getNextIP_advances_then_reads.1 rrReg "h" rrRec (by decide) (by decide)⟩

/-- C4: a hostname not present in the registry (never registered, or
already removed) gets the sentinel results — `("", -1)` from
`GetNextIPWithIdx` and `(nil, nil)` (embedded `([], [])`) from `GetIPs`
and `GetIPsStr`; a registered host with an empty IPv4 list also gets
`("", -1)`; all query operations are total functions. -/
theorem unknown_host_sentinels :
    (∀ (st : Registry) (host : String), st.lookup host = none →
      GetNextIPWithIdx st host = (st, "", -1) ∧
      GetIPs st host = (st, [], []) ∧
      GetIPsStr st host = (st, [], [])) ∧
    (∀ (st : Registry) (host : String), (DelHost st host).lookup host = none) ∧
    (∀ (st : Registry) (host : String) (r : Ips), st.lookup host = some r →
      r.ip4 = [] → GetNextIPWithIdx st host = (st, "", -1)) := by
  refine ⟨?_, lookup_delHost_self, ?_⟩
  · intro st host hl
    exact ⟨by simp [GetNextIPWithIdx, hl], by simp [GetIPs, hl],
      by simp [GetIPsStr, hl]⟩
  · intro st host r hl he
    simp [GetNextIPWithIdx, hl, he]

/-- Witness for C4: an unregistered host, a removed host, and a host
with an empty IPv4 list. -/
theorem unknown_host_sentinels_witness :
    (([] : Registry).lookup "nope" = none) ∧
    (GetNextIPWithIdx ([] : Registry) "nope" = ([], "", -1) ∧
     GetIPs ([] : Registry) "nope" = ([], [], []) ∧
     GetIPsStr ([] : Registry) "nope" = ([], [], [])) ∧
    ((DelHost rrReg "h").lookup "h" = none) ∧
    ([("e", emptyIps)] : Registry).lookup "e" = some emptyIps ∧ emptyIps.ip4 = [] ∧
    GetNextIPWithIdx ([("e", emptyIps)] : Registry) "e" = ([("e", emptyIps)], "", -1) :=
  ⟨rfl, unknown_host_sentinels.1 [] "nope" rfl,
   unknown_host_sentinels.2.1 rrReg "h",
   by decide, rfl,
   unknown_host_sentinels.2.2 [("e", emptyIps)] "e" emptyIps (by decide) rfl⟩

/-- C5: a failed lookup leaves the refresh cycle's registry exactly as it
was — the record (both address-list forms and the cursor) keeps the values
from the last successful resolution, every query reads the same data, and
the loop keeps running. -/
theorem lookup_failure_preserves_cache :
    ∀ (parseIP : String → Option IP) (host : String) (st : Registry),
      refreshCycle parseIP host .err st = (st, true) ∧
      (∀ h2, GetIPs (refreshCycle parseIP host .err st).1 h2 = GetIPs st h2) ∧
      (∀ h2, GetIPsStr (refreshCycle parseIP host .err st).1 h2 = GetIPsStr st h2) ∧
      (∀ h2, (refreshCycle parseIP host .err st).1.lookup h2 = st.lookup h2) :=
  fun _ _ _ => ⟨rfl, fun _ => rfl, fun _ => rfl, fun _ => rfl⟩

/-- C7: `AddHost` is idempotent — for a host already present it changes
nothing and starts no refresh loop; for an absent host it appends the
zero record and starts exactly one loop. -/
theorem addHost_idempotent :
    (∀ (st : Registry) (host : String) (r : Ips), st.lookup host = some r →
      AddHost st host = (st, false)) ∧
    (∀ (st : Registry) (host : String), st.lookup host = none →
      AddHost st host = (st ++ [(host, emptyIps)], true)) := by
  constructor
  · intro st host r hl
    simp [AddHost, hl]
  · intro st host hl
    simp [AddHost, hl]

/-- Witness for C7: registering `"h"` twice from the empty registry. -/
theorem addHost_idempotent_witness :
    ((AddHost ([] : Registry) "h").1.lookup "h" = some emptyIps) ∧
    AddHost (AddHost ([] : Registry) "h").1 "h" = ((AddHost ([] : Registry) "h").1, false) :=
  ⟨by decide, addHost_idempotent.1 (AddHost ([] : Registry) "h").1 "h" emptyIps (by decide)⟩

/-! ### The cursor-validity invariant (C2) -/

/-- The spec's cursor invariant for one record: 0 when the IPv4 list is
empty, a valid index into it otherwise. -/
def cursorOK (r : Ips) : Prop :=
  (r.ip4 = [] → r.idx = 0) ∧ (r.ip4 ≠ [] → 0 ≤ r.idx ∧ r.idx < (r.ip4.length : Int))

instance (r : Ips) : Decidable (cursorOK r) := by
  unfold cursorOK
  infer_instance

/-- Every record of the registry satisfies the cursor invariant. -/
def RegOK (st : Registry) : Prop := ∀ p ∈ st, cursorOK p.2

instance (st : Registry) : Decidable (RegOK st) := by
  unfold RegOK
  infer_instance

theorem cursorOK_emptyIps : cursorOK emptyIps :=
  ⟨fun _ => rfl, fun h => absurd rfl h⟩

theorem cursorOK_idx_nonneg {r : Ips} (h : cursorOK r) : 0 ≤ r.idx := by
  by_cases hr : r.ip4 = []
  · rw [h.1 hr]
  · exact (h.2 hr).1

theorem cursorOK_updatedRec {r : Ips} (parseIP : String → Option IP)
    (sip : List String) (h : cursorOK r) : cursorOK (updatedRec parseIP r sip) := by
  have hge : 0 ≤ r.idx := cursorOK_idx_nonneg h
  unfold updatedRec cursorOK
  dsimp only
  generalize sortStrings (partIPs parseIP sip).1 = L
  constructor
  · intro he
    have h0 : L.length = 0 := by rw [he]; rfl
    split <;> omega
  · intro hne
    have hp : 0 < L.length := List.length_pos.mpr hne
    split <;> omega

theorem updateHostIPs_some {parseIP : String → Option IP} {st : Registry}
    {host : String} {sip : List String} {r : Ips} (hl : st.lookup host = some r) :
    updateHostIPs parseIP st host sip = (setHost st host (updatedRec parseIP r sip), true) := by
  simp [updateHostIPs, hl]

theorem getNext_some {st : Registry} {host : String} {r : Ips}
    (hl : st.lookup host = some r) (he : r.ip4.length ≠ 0) :
    GetNextIPWithIdx st host =
      (setHost st host { r with idx := (r.idx + 1).tmod (r.ip4.length : Int) },
       r.ip4.getD ((r.idx + 1).tmod (r.ip4.length : Int)).toNat "",
       (r.idx + 1).tmod (r.ip4.length : Int)) := by
  simp [GetNextIPWithIdx, hl, he]

/-- A five-address fixture whose cursor sits at the last index. -/
def shrinkRec : Ips :=
  ⟨4, ["10.0.0.1", "10.0.0.2", "10.0.0.3", "10.0.0.4", "10.0.0.5"], [], [], []⟩

/-- A registry holding the five-address fixture under host `"h"`. -/
def shrinkReg : Registry := [("h", shrinkRec)]

/-- A lookup result that shrinks the fixture to two addresses. -/
def shrinkAddrs : List String := ["10.0.0.1", "10.0.0.2"]

/-- C2: the cursor invariant — 0 on an empty IPv4 list, a valid index
`[0, len-1]` otherwise — is preserved by every refresh update and every
`GetNextIPWithIdx` call (and by `AddHost` and `DelHost`, which create the
zero record and remove records); and whenever an update shrinks the IPv4
count to at most the prior cursor, the stored cursor is reset to 0. -/
theorem cursor_always_valid :
    (∀ (parseIP : String → Option IP) (st : Registry) (host : String) (sip : List String),
      RegOK st → RegOK (updateHostIPs parseIP st host sip).1) ∧
    (∀ (st : Registry) (host : String), RegOK st → RegOK (GetNextIPWithIdx st host).1) ∧
    (∀ (st : Registry) (host : String), RegOK st → RegOK (AddHost st host).1) ∧
    (∀ (st : Registry) (host : String), RegOK st → RegOK (DelHost st host)) ∧
    (∀ (parseIP : String → Option IP) (st : Registry) (host : String) (sip : List String)
      (r : Ips), st.lookup host = some r →
      ((sortStrings (partIPs parseIP sip).1).length : Int) ≤ r.idx →
      ∃ r2, ((updateHostIPs parseIP st host sip).1).lookup host = some r2 ∧ r2.idx = 0) := by
  refine ⟨?_, ?_, ?_, ?_, ?_⟩
  · intro parseIP st host sip hok
    cases hl : st.lookup host with
    | none => simpa [updateHostIPs, hl] using hok
    | some r =>
      rw [updateHostIPs_some hl]
      intro p hp
      rcases mem_setHost hp with rfl | hp2
      · exact cursorOK_updatedRec parseIP sip (hok _ (mem_of_lookup hl))
      · exact hok _ hp2
  · intro st host hok
    cases hl : st.lookup host with
    | none => simpa [GetNextIPWithIdx, hl] using hok
    | some r =>
      by_cases he : r.ip4.length = 0
      · simpa [GetNextIPWithIdx, hl, he] using hok
      · have hr := hok _ (mem_of_lookup hl)
        have hge : 0 ≤ r.idx := cursorOK_idx_nonneg hr
        have hpos : (0 : Int) < (r.ip4.length : Int) := by omega
        rw [getNext_some hl he]
        intro p hp
        rcases mem_setHost hp with rfl | hp2
        · refine ⟨fun hnil => ?_, fun _ => ?_⟩
          · have hnil2 : r.ip4 = [] := hnil
            rw [hnil2] at he
            exact absurd rfl he
          · exact ⟨Int.tmod_nonneg _ (by omega), Int.tmod_lt_of_pos _ hpos⟩
        · exact hok _ hp2
  · intro st host hok
    cases hl : st.lookup host with
    | some r => simpa [AddHost, hl] using hok
    | none =>
      simp only [AddHost, hl]
      intro p hp
      rcases List.mem_append.mp hp with hp2 | hp2
      · exact hok _ hp2
      · simp only [List.mem_singleton] at hp2
        rw [hp2]
        exact cursorOK_emptyIps
  · intro st host hok p hp
    exact hok _ (List.mem_filter.mp hp).1
  · intro parseIP st host sip r hl hsh
    refine ⟨updatedRec parseIP r sip, ?_, ?_⟩
    · rw [updateHostIPs_some hl]
      exact lookup_setHost_self hl
    · unfold updatedRec
      dsimp only
      rw [if_pos (by omega)]

/-- Witness for C2: the five-to-two shrink fixture with prior cursor 4. -/
theorem cursor_always_valid_witness :
    (RegOK shrinkReg ∧ RegOK (updateHostIPs parseIPModel shrinkReg "h" shrinkAddrs).1) ∧
    shrinkReg.lookup "h" = some shrinkRec ∧
    ((sortStrings (partIPs parseIPModel shrinkAddrs).1).length : Int) ≤ shrinkRec.idx ∧
    (∃ r2, ((updateHostIPs parseIPModel shrinkReg "h" shrinkAddrs).1).lookup "h" = some r2 ∧
      r2.idx = 0) :=
  ⟨⟨by decide, cursor_always_valid.1 parseIPModel shrinkReg "h" shrinkAddrs (by decide)⟩,
   by decide, by decide,
   cursor_always_valid.2.2.2.2 parseIPModel shrinkReg "h" shrinkAddrs shrinkRec
     (by decide) (by decide)⟩

/-- C8: `updateHostIPs` reports `false` exactly when the host is absent
from the registry at write time, changes nothing in that case, and the
refresh loop thereupon exits permanently: however many further lookup
outcomes were still to come, none is consumed and the registry is left
exactly as it was. -/
theorem removed_host_stops_loop :
    (∀ (parseIP : String → Option IP) (st : Registry) (host : String) (sip : List String),
      (updateHostIPs parseIP st host sip).2 = false ↔ st.lookup host = none) ∧
    (∀ (parseIP : String → Option IP) (st : Registry) (host : String) (sip : List String),
      st.lookup host = none → updateHostIPs parseIP st host sip = (st, false)) ∧
    (∀ (parseIP : String → Option IP) (st : Registry) (host : String)
      (addrs : List String) (rest : List LookupResult), st.lookup host = none →
      refreshLoop parseIP host (.ok addrs :: rest) st = st) := by
  refine ⟨?_, ?_, ?_⟩
  · intro parseIP st host sip
    cases hl : st.lookup host <;> simp [updateHostIPs, hl]
  · intro parseIP st host sip hl
    simp [updateHostIPs, hl]
  · intro parseIP st host addrs rest hl
    simp [refreshLoop, refreshCycle, updateHostIPs, hl]

/-- Witness for C8: a host absent from the empty registry stops the loop
on its first successful cycle, with two more outcomes pending. -/
theorem removed_host_stops_loop_witness :
    (([] : Registry).lookup "h" = none) ∧
    updateHostIPs parseIPModel ([] : Registry) "h" ["10.0.0.1"] = ([], false) ∧
    refreshLoop parseIPModel "h"
      [.ok ["10.0.0.1"], .ok ["10.0.0.2"], .err] ([] : Registry) = [] :=
  ⟨rfl, removed_host_stops_loop.2.1 parseIPModel [] "h" ["10.0.0.1"] rfl,
   removed_host_stops_loop.2.2 parseIPModel [] "h" ["10.0.0.1"]
     [.ok ["10.0.0.2"], .err] rfl⟩

/-- A registry with one freshly registered host `"h"`. -/
def oneHostReg : Registry := [("h", emptyIps)]

/-- A lookup result whose IPv4 strings arrive in reverse lexicographic
order. -/
def c3Addrs : List String := ["10.0.0.2", "10.0.0.1"]

/-- C3 counterexample: after the successful update of `"h"` with
`["10.0.0.2", "10.0.0.1"]`, the stored string list is sorted to
`["10.0.0.1", "10.0.0.2"]` but the stored binary list stays in arrival
order, so the element at index 0 of the binary list is not the parse of
the element at index 0 of the string list — the claimed index-wise
correspondence (and sortedness of the binary list) fails. -/
theorem binary_not_string_sorted_counterexample :
    (updateHostIPs parseIPModel oneHostReg "h" c3Addrs).2 = true ∧
    ((updateHostIPs parseIPModel oneHostReg "h" c3Addrs).1).lookup "h" =
      some (updatedRec parseIPModel emptyIps c3Addrs) ∧
    (updatedRec parseIPModel emptyIps c3Addrs).ip4 = ["10.0.0.1", "10.0.0.2"] ∧
    (updatedRec parseIPModel emptyIps c3Addrs).ipv4.getD 0 [] ≠
      (parseIPModel ((updatedRec parseIPModel emptyIps c3Addrs).ip4.getD 0 "")).getD [] :=
  ⟨by decide, by decide, by decide, by decide⟩

/-- C3 (amended): after every successful refresh update, the IPv4 and
IPv6 string lists are sorted lexicographically, and each binary list
holds the parses of exactly the addresses of the corresponding string
list (a permutation of its parses) — but in lookup-return order, not in
the string lists' sorted order. -/
theorem update_sorts_strings_only :
    ∀ (parseIP : String → Option IP) (st : Registry) (host : String)
      (sip : List String) (r : Ips), st.lookup host = some r →
      ∃ r2, ((updateHostIPs parseIP st host sip).1).lookup host = some r2 ∧
        r2.ip4.Sorted (· ≤ ·) ∧ r2.ip6.Sorted (· ≤ ·) ∧
        List.Perm (r2.ip4.filterMap parseIP) r2.ipv4 ∧
        List.Perm (r2.ip6.filterMap parseIP) r2.ipv6 := by
  intro parseIP st host sip r hl
  refine ⟨updatedRec parseIP r sip, ?_, ?_, ?_, ?_, ?_⟩
  · rw [updateHostIPs_some hl]
    exact lookup_setHost_self hl
  · exact sortStrings_sorted _
  · exact sortStrings_sorted _
  · exact (sortStrings_perm _).filterMap parseIP
  · exact (sortStrings_perm _).filterMap parseIP

/-- Witness for the amended C3 at the reverse-order fixture. -/
theorem update_sorts_strings_only_witness :
    oneHostReg.lookup "h" = some emptyIps ∧
    ∃ r2, ((updateHostIPs parseIPModel oneHostReg "h" c3Addrs).1).lookup "h" = some r2 ∧
      r2.ip4.Sorted (· ≤ ·) ∧ r2.ip6.Sorted (· ≤ ·) ∧
      List.Perm (r2.ip4.filterMap parseIPModel) r2.ipv4 ∧
      List.Perm (r2.ip6.filterMap parseIPModel) r2.ipv6 :=
  ⟨rfl, update_sorts_strings_only parseIPModel oneHostReg "h" c3Addrs emptyIps rfl⟩

/-- C6: on a successful lookup, strings containing a colon are routed to
the IPv6 side and the rest to the IPv4 side, strings the parser rejects
are silently dropped while valid entries of the same batch are retained,
and each partition's string list is sorted lexicographically; resolving
`["10.0.0.1","10.0.0.2","::1"]` stores ip4 = `["10.0.0.1","10.0.0.2"]`
and ip6 = `["::1"]`, also when `"not-an-ip"` is mixed into the batch. -/
theorem partition_parse_sort :
    (∀ (parseIP : String → Option IP) (st : Registry) (host : String)
      (sip : List String) (r : Ips), st.lookup host = some r →
      ∃ r2, ((updateHostIPs parseIP st host sip).1).lookup host = some r2 ∧
        (∀ x, x ∈ r2.ip4 ↔ (x ∈ sip ∧ (parseIP x).isSome = true ∧ hasColon x = false)) ∧
        (∀ x, x ∈ r2.ip6 ↔ (x ∈ sip ∧ (parseIP x).isSome = true ∧ hasColon x = true)) ∧
        r2.ip4.Sorted (· ≤ ·) ∧ r2.ip6.Sorted (· ≤ ·)) ∧
    (((updateHostIPs parseIPModel oneHostReg "h" ["10.0.0.1", "10.0.0.2", "::1"]).1).lookup "h" =
        some (updatedRec parseIPModel emptyIps ["10.0.0.1", "10.0.0.2", "::1"]) ∧
      (updatedRec parseIPModel emptyIps ["10.0.0.1", "10.0.0.2", "::1"]).ip4 =
        ["10.0.0.1", "10.0.0.2"] ∧
      (updatedRec parseIPModel emptyIps ["10.0.0.1", "10.0.0.2", "::1"]).ip6 = ["::1"]) ∧
    (((updateHostIPs parseIPModel oneHostReg "h"
          ["10.0.0.1", "not-an-ip", "10.0.0.2", "::1"]).1).lookup "h" =
        some (updatedRec parseIPModel emptyIps ["10.0.0.1", "not-an-ip", "10.0.0.2", "::1"]) ∧
      (updatedRec parseIPModel emptyIps ["10.0.0.1", "not-an-ip", "10.0.0.2", "::1"]).ip4 =
        ["10.0.0.1", "10.0.0.2"] ∧
      (updatedRec parseIPModel emptyIps ["10.0.0.1", "not-an-ip", "10.0.0.2", "::1"]).ip6 =
        ["::1"]) := by
  refine ⟨?_, ⟨by decide, by decide, by decide⟩, ⟨by decide, by decide, by decide⟩⟩
  intro parseIP st host sip r hl
  refine ⟨updatedRec parseIP r sip, ?_, ?_, ?_, ?_, ?_⟩
  · rw [updateHostIPs_some hl]
    exact lookup_setHost_self hl
  · intro x
    show x ∈ sortStrings ((sip.filter (fun ip => (parseIP ip).isSome)).filter
      (fun ip => !(hasColon ip))) ↔ _
    rw [mem_sortStrings]
    simp only [List.mem_filter, Bool.not_eq_true', and_assoc]
  · intro x
    show x ∈ sortStrings ((sip.filter (fun ip => (parseIP ip).isSome)).filter
      (fun ip => hasColon ip)) ↔ _
    rw [mem_sortStrings]
    simp only [List.mem_filter, and_assoc]
  · exact sortStrings_sorted _
  · exact sortStrings_sorted _

/-- Witness for C6 at the mixed batch with an unparseable entry. -/
theorem partition_parse_sort_witness :
    oneHostReg.lookup "h" = some emptyIps ∧
    ∃ r2, ((updateHostIPs parseIPModel oneHostReg "h"
        ["10.0.0.1", "not-an-ip", "10.0.0.2", "::1"]).1).lookup "h" = some r2 ∧
      (∀ x, x ∈ r2.ip4 ↔ (x ∈ ["10.0.0.1", "not-an-ip", "10.0.0.2", "::1"] ∧
        (parseIPModel x).isSome = true ∧ hasColon x = false)) ∧
      (∀ x, x ∈ r2.ip6 ↔ (x ∈ ["10.0.0.1", "not-an-ip", "10.0.0.2", "::1"] ∧
        (parseIPModel x).isSome = true ∧ hasColon x = true)) ∧
      r2.ip4.Sorted (· ≤ ·) ∧ r2.ip6.Sorted (· ≤ ·) :=
  ⟨rfl, partition_parse_sort.1 parseIPModel oneHostReg "h"
    ["10.0.0.1", "not-an-ip", "10.0.0.2", "::1"] emptyIps rfl⟩

/-- C9 (refuting the locking discipline on the code): a refresh write for
a registered host performs its record-field writes after the shared lock
has been released — the event trace contains record writes and none of
them happens while the exclusive lock is held. -/
theorem update_writes_without_lock :
    (updateHostIPsEvents parseIPModel oneHostReg "h" ["10.0.0.1"]).contains
      (.writeField "ip4") = true ∧
    allWritesExclusive
      (updateHostIPsEvents parseIPModel oneHostReg "h" ["10.0.0.1"]) = false :=
  ⟨by decide, by decide⟩

/-- C10: `GetNextIPWithIdx` modifies at most the queried host's cursor —
every other host's record is untouched and the queried host's four
address lists are unchanged — and `GetIPs`, `GetIPsStr`, `Dump` and
`DumpPfx` leave the whole registry untouched. -/
theorem queries_frame :
    (∀ (st : Registry) (host : String), (GetIPs st host).1 = st) ∧
    (∀ (st : Registry) (host : String), (GetIPsStr st host).1 = st) ∧
    (∀ (st : Registry) (pfx : String), (DumpPfx st pfx).1 = st) ∧
    (∀ (st : Registry), (Dump st).1 = st) ∧
    (∀ (st : Registry) (host h2 : String), h2 ≠ host →
      ((GetNextIPWithIdx st host).1).lookup h2 = st.lookup h2) ∧
    (∀ (st : Registry) (host : String), st.lookup host = none →
      (GetNextIPWithIdx st host).1 = st) ∧
    (∀ (st : Registry) (host : String) (r : Ips), st.lookup host = some r →
      ∃ r2, ((GetNextIPWithIdx st host).1).lookup host = some r2 ∧
        r2.ip4 = r.ip4 ∧ r2.ip6 = r.ip6 ∧ r2.ipv4 = r.ipv4 ∧ r2.ipv6 = r.ipv6) := by
  refine ⟨?_, ?_, fun _ _ => rfl, fun _ => rfl, ?_, ?_, ?_⟩
  · intro st host
    cases hl : st.lookup host <;> simp [GetIPs, hl]
  · intro st host
    cases hl : st.lookup host <;> simp [GetIPsStr, hl]
  · intro st host h2 hne
    cases hl : st.lookup host with
    | none => simp [GetNextIPWithIdx, hl]
    | some r =>
      by_cases he : r.ip4.length = 0
      · simp [GetNextIPWithIdx, hl, he]
      · rw [getNext_some hl he]
        exact lookup_setHost_ne st host h2 _ hne
  · intro st host hl
    simp [GetNextIPWithIdx, hl]
  · intro st host r hl
    by_cases he : r.ip4.length = 0
    · refine ⟨r, ?_, rfl, rfl, rfl, rfl⟩
      simp [GetNextIPWithIdx, hl, he]
    · refine ⟨{ r with idx := (r.idx + 1).tmod (r.ip4.length : Int) }, ?_, rfl, rfl, rfl, rfl⟩
      rw [getNext_some hl he]
      exact lookup_setHost_self hl

/-- Witness for C10 at the round-robin fixture. -/
theorem queries_frame_witness :
    rrReg.lookup "h" = some rrRec ∧
    (∃ r2, ((GetNextIPWithIdx rrReg "h").1).lookup "h" = some r2 ∧
      r2.ip4 = rrRec.ip4 ∧ r2.ip6 = rrRec.ip6 ∧ r2.ipv4 = rrRec.ipv4 ∧ r2.ipv6 = rrRec.ipv6) ∧
    ("x" ≠ "h") ∧
    ((GetNextIPWithIdx rrReg "h").1).lookup "x" = rrReg.lookup "x" :=
  ⟨rfl, queries_frame.2.2.2.2.2.2 rrReg "h" rrRec rfl, by decide,
   queries_frame.2.2.2.2.1 rrReg "h" "x" (by decide)⟩

end Resolver
